import Mathlib

/-!
Verification development for the WhatsApp monitor pipeline
(message analyzer, webhook dispatcher, reconnection supervisor).

The definitions below are a shallow embedding of the TypeScript sources:
* `src/src/services/MessageAnalyzer.ts` (second class in the file: the
  analyzer with content cache, spam analysis, advanced rate limiting,
  pattern detection, behavioral analysis and risk scoring),
* `src/src/services/DatabaseManager.ts` (the `WhatsAppManager` class with
  `handleReconnection`, and `saveMessage`'s risk-score persistence),
* `src/unnamed/part_002` (`WebhookManager.sendWebhook`).

Strings are modelled as `List Char` (JS strings; `charCodeAt` is `Char.toNat`,
exact for the ASCII contents considered here).  JS floating-point score
arithmetic is modelled over `ℚ`; every concrete comparison proved below is
robust to this (both sides are short decimal fractions that are exact in
both models).  Fallible steps are modelled with `Except`.
-/

namespace Monitor

/-- JS whitespace class (regex backslash-s), restricted to its ASCII members:
space, tab, line feed, vertical tab, form feed, carriage return. -/
def jsIsWs (c : Char) : Bool :=
  c == ' ' || c == '\t' || c == '\n' || c == Char.ofNat 11 || c == Char.ofNat 12 || c == '\r'

/-- JS word-character class (regex backslash-w): ASCII letters, digits, underscore. -/
def jsIsWordChar (c : Char) : Bool :=
  (48 ≤ c.toNat && c.toNat ≤ 57) || (65 ≤ c.toNat && c.toNat ≤ 90) ||
  (97 ≤ c.toNat && c.toNat ≤ 122) || c.toNat == 95

/-- ASCII decimal digit (regex backslash-d). -/
def jsIsDigit (c : Char) : Bool := 48 ≤ c.toNat && c.toNat ≤ 57

/-- ASCII uppercase letter (class A-Z). -/
def jsIsUpper (c : Char) : Bool := 65 ≤ c.toNat && c.toNat ≤ 90

/-- String.prototype.toLowerCase on one character (ASCII range). -/
def jsToLowerChar (c : Char) : Char :=
  if 65 ≤ c.toNat && c.toNat ≤ 90 then Char.ofNat (c.toNat + 32) else c

/-- String.prototype.toLowerCase. -/
def jsToLower (s : List Char) : List Char := s.map jsToLowerChar

/-- Helper for `collapseWs`: the flag records whether the previous character
was part of a whitespace run whose replacement space was already emitted. -/
def collapseWsAux : Bool → List Char → List Char
  | _, [] => []
  | prevWs, c :: rest =>
    if jsIsWs c then
      if prevWs then collapseWsAux true rest else ' ' :: collapseWsAux true rest
    else c :: collapseWsAux false rest

/-- replace(whitespace-run regex, single space): every maximal whitespace run
becomes one space (MessageAnalyzer.ts, generateContentHash). -/
def collapseWs (s : List Char) : List Char := collapseWsAux false s

/-- replace(non-word-non-space regex, empty): drop every character that is
neither a word character nor whitespace (MessageAnalyzer.ts, generateContentHash). -/
def stripNonWord (s : List Char) : List Char :=
  s.filter (fun c => jsIsWordChar c || jsIsWs c)

/-- String.prototype.trim: drop leading and trailing whitespace. -/
def jsTrim (s : List Char) : List Char :=
  ((s.dropWhile jsIsWs).reverse.dropWhile jsIsWs).reverse

/-- Helper for `jsSplitWs`; `inRun` records being inside a separator run. -/
def jsSplitWsAux : Bool → List Char → List Char → List (List Char)
  | _, acc, [] => [acc.reverse]
  | inRun, acc, c :: rest =>
    if jsIsWs c then
      if inRun then jsSplitWsAux true acc rest
      else acc.reverse :: jsSplitWsAux true [] rest
    else jsSplitWsAux false (c :: acc) rest

/-- String.prototype.split on the whitespace-run regex.  Note the JS
semantics kept here: an empty string yields one empty field, and leading or
trailing separators yield empty boundary fields. -/
def jsSplitWs (s : List Char) : List (List Char) := jsSplitWsAux false [] s

/-- String.prototype.includes with the literal lowercase pattern "http"
(case-sensitive, as in the source). -/
def hasHttp : List Char → Bool
  | [] => false
  | c :: rest => (c == 'h' && (List.take 3 rest == ['t', 't', 'p'])) || hasHttp rest

/-- ToInt32: wrap an integer to the signed 32-bit range, as JS bitwise
operators do. -/
def toInt32 (n : Int) : Int := (n + 2 ^ 31) % 2 ^ 32 - 2 ^ 31

/-- One step of the content-hash loop
(hash = ((hash shl 5) - hash) + charCode; hash = hash AND hash):
the shift wraps to 32 bits, the AND coerces the sum back to 32 bits. -/
def hashStep (h : Int) (c : Char) : Int :=
  toInt32 (toInt32 (h * 32) - h + c.toNat)

/-- The content-hash loop of generateContentHash over the normalized string. -/
def hashString (s : List Char) : Int := s.foldl hashStep 0

/-- One base-36 digit, lowercase (Number.prototype.toString(36)). -/
def digit36 (n : Nat) : Char :=
  if n < 10 then Char.ofNat (48 + n) else Char.ofNat (87 + n)

/-- Base-36 digits of a natural number, most significant first; the first
argument is fuel (the number itself suffices). -/
def natToBase36Aux : Nat → Nat → List Char
  | 0, n => [digit36 (n % 36)]
  | fuel + 1, n =>
    if n < 36 then [digit36 n]
    else natToBase36Aux fuel (n / 36) ++ [digit36 (n % 36)]

/-- Number.prototype.toString(36) for a natural number. -/
def natToBase36 (n : Nat) : List Char := natToBase36Aux n n

/-- Number.prototype.toString(36) for a (32-bit) integer: sign then digits. -/
def intToBase36 (i : Int) : List Char :=
  if i < 0 then '-' :: natToBase36 i.natAbs else natToBase36 i.toNat

/-- The normalization pipeline of generateContentHash
(MessageAnalyzer.ts lines 464-479): lowercase, collapse whitespace runs to a
single space, strip characters that are neither word characters nor
whitespace, trim. -/
def normalizeContent (content : List Char) : List Char :=
  jsTrim (stripNonWord (collapseWs (jsToLower content)))

/-- generateContentHash (MessageAnalyzer.ts lines 464-479): hash of the
normalized content, rendered in base 36. -/
def generateContentHash (content : List Char) : List Char :=
  intToBase36 (hashString (normalizeContent content))

/-! ### The content-fingerprint cache (JS Map in insertion order) -/

/-- Map.prototype.get: value of the first (hence only) entry with this key. -/
def mapLookup {α β : Type} [DecidableEq α] (k : α) : List (α × β) → Option β
  | [] => none
  | (k', v) :: rest => if k' = k then some v else mapLookup k rest

/-- Map.prototype.set: replace in place, else append (JS Maps keep the
original insertion position of an updated key). -/
def mapSet {α β : Type} [DecidableEq α] (k : α) (v : β) : List (α × β) → List (α × β)
  | [] => [(k, v)]
  | (k', v') :: rest => if k' = k then (k, v) :: rest else (k', v') :: mapSet k v rest

/-- Insert into a list sorted by `le`, before the first element not
`le`-below the new one.  Used to model the stable Array.prototype.sort. -/
def insertByLe {α : Type} (le : α → α → Bool) (x : α) : List α → List α
  | [] => [x]
  | y :: ys => if le x y then x :: y :: ys else y :: insertByLe le x ys

/-- Stable insertion sort; Array.prototype.sort is stable (ES2019), and the
comparator (a, b) => b[1] - a[1] sorts by occurrence count descending. -/
def sortByLe {α : Type} (le : α → α → Bool) : List α → List α
  | [] => []
  | x :: xs => insertByLe le x (sortByLe le xs)

/-- Comparator of the eviction pass: entry a precedes entry b when its
count is at least b's (descending counts; ties keep insertion order). -/
def countDescLe {α : Type} (a b : α × Nat) : Bool := b.2 ≤ a.2

/-- The eviction pass of isDuplicateContent (MessageAnalyzer.ts lines
450-459): sort entries by count descending, clear, re-insert the first i
entries for i < entries.length / 2 — with JS float division that keeps
ceil(length / 2) entries, i.e. (length + 1) / 2 in integer division. -/
def evictCache {α : Type} (entries : List (α × Nat)) : List (α × Nat) :=
  (sortByLe countDescLe entries).take ((entries.length + 1) / 2)

/-- CACHE_SIZE_LIMIT (MessageAnalyzer.ts line 136). -/
def CACHE_SIZE_LIMIT : Nat := 10000

/-- isDuplicateContent (MessageAnalyzer.ts lines 445-462), parametrized by
the size limit and generic in the key type (the cache behaviour does not
inspect keys beyond equality): read the prior count, store count + 1, run
the eviction pass when the size exceeds the limit, and report a duplicate
when the prior count exceeds 2. -/
def dupCheckStep {α : Type} [DecidableEq α] (limit : Nat) (k : α)
    (cache : List (α × Nat)) : Bool × List (α × Nat) :=
  let count := (mapLookup k cache).getD 0
  let c1 := mapSet k (count + 1) cache
  let c2 := if limit < c1.length then evictCache c1 else c1
  (2 < count, c2)

/-- isDuplicateContent at the configured limit, on fingerprint strings. -/
def isDuplicateContent (contentHash : List Char) (cache : List (List Char × Nat)) :
    Bool × List (List Char × Nat) :=
  dupCheckStep CACHE_SIZE_LIMIT contentHash cache

/-! ### A small backtracking matcher for the analyzer's regular expressions

A matcher takes the character preceding the current position (`none` at the
start of the string, needed for word boundaries) and the remaining input,
and returns the possible (new preceding character, remaining input) pairs in
JS backtracking preference order; the head of the list is the match the JS
engine produces. -/

/-- Nondeterministic matcher with results in preference order. -/
def Matcher : Type := Option Char → List Char → List (Option Char × List Char)

/-- Match the empty string. -/
def mEps : Matcher := fun p s => [(p, s)]

/-- Match one character of a class. -/
def mPred (f : Char → Bool) : Matcher := fun _ s =>
  match s with
  | [] => []
  | c :: r => if f c then [(some c, r)] else []

/-- Match one literal character, optionally case-insensitively (flag i). -/
def mChar (ci : Bool) (c : Char) : Matcher :=
  mPred (fun x => if ci then jsToLowerChar x == jsToLowerChar c else x == c)

/-- Sequencing (backtracks through all splits in preference order). -/
def mSeq (m1 m2 : Matcher) : Matcher := fun p s =>
  (m1 p s).flatMap (fun pr => m2 pr.1 pr.2)

/-- Alternation, first alternative preferred. -/
def mAlt (m1 m2 : Matcher) : Matcher := fun p s => m1 p s ++ m2 p s

/-- Greedy option (regex question mark): prefer matching. -/
def mOpt (m : Matcher) : Matcher := mAlt m mEps

/-- A literal string. -/
def mLit (ci : Bool) (cs : List Char) : Matcher :=
  cs.foldr (fun c acc => mSeq (mChar ci c) acc) mEps

/-- Exactly n repetitions. -/
def mRep (m : Matcher) : Nat → Matcher
  | 0 => mEps
  | n + 1 => mSeq m (mRep m n)

/-- Greedy counted repetition of a character class: lengths from
min(hi, run length) down to lo, where the run is the maximal prefix
satisfying the class. -/
def mClassRange (f : Char → Bool) (lo hi : Nat) : Matcher := fun p s =>
  let run := (s.takeWhile f).length
  let top := min hi run
  (List.range (top + 1)).filterMap (fun i =>
    let n := top - i
    if lo ≤ n && 1 ≤ n then
      match (s.take n).getLast? with
      | some c => some (some c, s.drop n)
      | none => none
    else if lo ≤ n && n == 0 then some (p, s)
    else none)

/-- Greedy unbounded at-least-lo repetition of a character class
(regex plus is lo = 1): lengths from the maximal run down to lo. -/
def mClassAtLeast (f : Char → Bool) (lo : Nat) : Matcher := fun p s =>
  mClassRange f lo (s.takeWhile f).length p s

/-- Word boundary (regex backslash-b): word-ness differs on the two sides. -/
def mBoundary : Matcher := fun p s =>
  let wl := match p with | some c => jsIsWordChar c | none => false
  let wr := match s.head? with | some c => jsIsWordChar c | none => false
  if wl != wr then [(p, s)] else []

/-- Greedy star over the literal comma-plus-three-digits group of the money
pattern; fuel bounds the recursion (the input length suffices). -/
def commaGroups : Nat → Matcher
  | 0 => mEps
  | fuel + 1 => fun p s =>
    (mSeq (mChar false ',') (mRep (mPred jsIsDigit) 3)) p s |>.flatMap
      (fun pr => commaGroups fuel pr.1 pr.2) |>.append [(p, s)]

/-- The repeated-character pattern (dot capture followed by four-plus
backreferences): at least five consecutive copies of one character; the dot
does not match line terminators. -/
def mRepeatedChar : Matcher := fun _ s =>
  match s with
  | [] => []
  | c :: rest =>
    if c == '\n' || c == '\r' then []
    else
      let run := (rest.takeWhile (fun x => x == c)).length
      (List.range (run + 1)).filterMap (fun i =>
        let n := run - i
        if 4 ≤ n then some (some c, rest.drop n) else none)

/-- First (JS-preferred) match of a matcher at the current position. -/
def matchHere (m : Matcher) (p : Option Char) (s : List Char) :
    Option (Option Char × List Char) :=
  (m p s).head?

/-- Count the non-overlapping matches of a global regex, scanning left to
right and continuing after each match, as String.prototype.match does with
the g flag; fuel bounds the scan (length + 1 positions suffice because each
step consumes at least one character or ends). -/
def countAux (m : Matcher) : Nat → Option Char → List Char → Nat
  | 0, _, _ => 0
  | fuel + 1, p, s =>
    match matchHere m p s with
    | some (p', rest) =>
      if rest.length < s.length then 1 + countAux m fuel p' rest
      else
        match s with
        | [] => 1
        | c :: r => 1 + countAux m fuel (some c) r
    | none =>
      match s with
      | [] => 0
      | c :: r => countAux m fuel (some c) r

/-- Number of matches of a global regex in a string (0 when match returns
null). -/
def countMatches (m : Matcher) (s : List Char) : Nat :=
  countAux m (s.length + 1) none s

/-! ### The suspicious-pattern battery (MessageAnalyzer.ts lines 170-199) -/

/-- Class of a non-whitespace character (negated whitespace class). -/
def notWs (c : Char) : Bool := !(jsIsWs c)

/-- Pattern https?://non-ws-plus with flags g and i. -/
def urlMatcher : Matcher :=
  mSeq (mLit true "http".toList)
    (mSeq (mOpt (mChar true 's'))
      (mSeq (mLit true "://".toList) (mClassAtLeast notWs 1)))

/-- Shortener pattern with a literal case-insensitive prefix then non-ws-plus. -/
def shortenerMatcher (pre : List Char) : Matcher :=
  mSeq (mLit true pre) (mClassAtLeast notWs 1)

/-- Separator class of the credit-card pattern: whitespace or hyphen. -/
def wsOrDash (c : Char) : Bool := jsIsWs c || c == '-'

/-- Separator class of the SSN and phone patterns: hyphen or dot. -/
def dashOrDot (c : Char) : Bool := c == '-' || c == '.'

/-- Money-amount pattern: dollar sign, digits, optional comma groups,
optional cents. -/
def moneyMatcher : Matcher := fun p s =>
  (mSeq (mChar false '$')
    (mSeq (mClassAtLeast jsIsDigit 1)
      (mSeq (fun p' s' => commaGroups s'.length p' s')
        (mOpt (mSeq (mChar false '.') (mRep (mPred jsIsDigit) 2)))))) p s

/-- Credit-card shaped pattern: four groups of four digits with optional
whitespace-or-hyphen separators, word-bounded. -/
def creditCardMatcher : Matcher :=
  mSeq mBoundary
    (mSeq (mRep (mPred jsIsDigit) 4) (mSeq (mOpt (mPred wsOrDash))
      (mSeq (mRep (mPred jsIsDigit) 4) (mSeq (mOpt (mPred wsOrDash))
        (mSeq (mRep (mPred jsIsDigit) 4) (mSeq (mOpt (mPred wsOrDash))
          (mSeq (mRep (mPred jsIsDigit) 4) mBoundary)))))))

/-- SSN-shaped pattern: 3-2-4 digits with optional hyphen-or-dot separators. -/
def ssnMatcher : Matcher :=
  mSeq mBoundary
    (mSeq (mRep (mPred jsIsDigit) 3) (mSeq (mOpt (mPred dashOrDot))
      (mSeq (mRep (mPred jsIsDigit) 2) (mSeq (mOpt (mPred dashOrDot))
        (mSeq (mRep (mPred jsIsDigit) 4) mBoundary)))))

/-- Phone-shaped pattern: 3-3-4 digits with optional hyphen-or-dot separators. -/
def phoneMatcher : Matcher :=
  mSeq mBoundary
    (mSeq (mRep (mPred jsIsDigit) 3) (mSeq (mOpt (mPred dashOrDot))
      (mSeq (mRep (mPred jsIsDigit) 3) (mSeq (mOpt (mPred dashOrDot))
        (mSeq (mRep (mPred jsIsDigit) 4) mBoundary)))))

/-- Email local-part class. -/
def emailLocalChar (c : Char) : Bool :=
  jsIsWordChar c || c == '.' || c == '%' || c == '+' || c == '-'

/-- Email domain class. -/
def emailDomainChar (c : Char) : Bool :=
  (jsIsWordChar c && !(c == '_')) || c == '.' || c == '-'

/-- ASCII letter. -/
def jsIsAlpha (c : Char) : Bool :=
  (65 ≤ c.toNat && c.toNat ≤ 90) || (97 ≤ c.toNat && c.toNat ≤ 122)

/-- Email-address pattern. -/
def emailMatcher : Matcher :=
  mSeq (mClassAtLeast emailLocalChar 1)
    (mSeq (mChar false '@')
      (mSeq (mClassAtLeast emailDomainChar 1)
        (mSeq (mChar false '.') (mClassAtLeast jsIsAlpha 2))))

/-- Excessive-caps pattern: five or more consecutive uppercase letters. -/
def capsMatcher : Matcher := mClassAtLeast jsIsUpper 5

/-- Multiple-exclamation pattern: three or more exclamation marks. -/
def exclamMatcher : Matcher := mClassAtLeast (fun c => c == '!') 3

/-- Currency-symbol class, with the code points exactly as they appear in
the (mojibake-encoded) source file's character class. -/
def currencyChar (c : Char) : Bool :=
  c == '$' || c == Char.ofNat 0xE2 || c == Char.ofNat 0x201A || c == Char.ofNat 0xAC ||
  c == Char.ofNat 0xC2 || c == Char.ofNat 0xA3 || c == Char.ofNat 0xA5 || c == Char.ofNat 0xB9

/-- Multiple-currency-symbol pattern. -/
def currencyMatcher : Matcher := mClassAtLeast currencyChar 2

/-- Base58-style class of the bitcoin-address pattern
(a-k, m-z, A-H, J-N, P-Z, 1-9). -/
def btcChar (c : Char) : Bool :=
  (97 ≤ c.toNat && c.toNat ≤ 107) || (109 ≤ c.toNat && c.toNat ≤ 122) ||
  (65 ≤ c.toNat && c.toNat ≤ 72) || (74 ≤ c.toNat && c.toNat ≤ 78) ||
  (80 ≤ c.toNat && c.toNat ≤ 90) || (49 ≤ c.toNat && c.toNat ≤ 57)

/-- Bitcoin-address shaped pattern. -/
def btcMatcher : Matcher :=
  mSeq mBoundary
    (mSeq (mPred (fun c => c == '1' || c == '3'))
      (mSeq (mClassRange btcChar 25 34) mBoundary))

/-- Hexadecimal digit class. -/
def jsIsHex (c : Char) : Bool :=
  jsIsDigit c || (97 ≤ c.toNat && c.toNat ≤ 102) || (65 ≤ c.toNat && c.toNat ≤ 70)

/-- Ethereum-address shaped pattern. -/
def ethMatcher : Matcher :=
  mSeq mBoundary
    (mSeq (mLit false "0x".toList) (mSeq (mClassRange jsIsHex 40 40) mBoundary))

/-- Social-handle pattern: at sign then word characters. -/
def handleMatcher : Matcher :=
  mSeq (mChar false '@') (mClassAtLeast jsIsWordChar 1)

/-- Hashtag pattern: hash sign then word characters. -/
def hashtagMatcher : Matcher :=
  mSeq (mChar false '#') (mClassAtLeast jsIsWordChar 1)

/-- The suspiciousPatterns array in source order. -/
def suspiciousPatterns : List Matcher :=
  [urlMatcher,
   shortenerMatcher "bit.ly/".toList,
   shortenerMatcher "tinyurl.com/".toList,
   shortenerMatcher "t.co/".toList,
   moneyMatcher,
   creditCardMatcher,
   ssnMatcher,
   phoneMatcher,
   emailMatcher,
   capsMatcher,
   mRepeatedChar,
   exclamMatcher,
   currencyMatcher,
   btcMatcher,
   ethMatcher,
   handleMatcher,
   hashtagMatcher]

/-! ### Alert and severity model -/

/-- Alert severity levels. -/
inductive Severity
  | low
  | medium
  | high
  | critical
deriving DecidableEq, Repr

/-- The alert types the analyzer creates. -/
inductive AlertType
  | duplicate_content
  | spam_detected
  | rate_limit_exceeded
  | suspicious_pattern
  | behavioral_anomaly
deriving DecidableEq, Repr

/-- An alert as created by createAlert, restricted to the analysis-relevant
fields (ids, channel, description strings and timestamps are bookkeeping
data that no claim mentions). -/
structure Alert where
  type : AlertType
  severity : Severity
deriving DecidableEq, Repr

/-- detectAdvancedPatterns (MessageAnalyzer.ts lines 354-377): per pattern,
count the matches; a matching pattern contributes its description and
count times 0.1 confidence; severity is derived from the accumulated (not
yet capped) confidence and the returned confidence is capped at 1. -/
def detectAdvancedPatterns (content : List Char) :
    Nat × ℚ × Severity :=
  let step := fun (acc : Nat × ℚ) (m : Matcher) =>
    let n := countMatches m content
    if 0 < n then (acc.1 + 1, acc.2 + mkRat n 1 * mkRat 1 10) else acc
  let res := suspiciousPatterns.foldl step (0, 0)
  let severity :=
    if res.2 > mkRat 7 10 then Severity.high
    else if res.2 > mkRat 3 10 then Severity.medium
    else Severity.low
  (res.1, min res.2 1, severity)

/-! ### Spam analysis (MessageAnalyzer.ts lines 281-322, 427-443) -/

/-- The spamKeywords set (MessageAnalyzer.ts lines 147-167).  Membership is
tested against single whitespace-split tokens, so multi-word entries can
never match; they are kept verbatim from the source. -/
def spamKeywordList : List (List Char) :=
  ["free money".toList, "easy money".toList, "get rich quick".toList,
   "investment opportunity".toList, "guaranteed profit".toList,
   "no risk".toList, "double your money".toList, "financial freedom".toList,
   "verify account".toList, "suspended account".toList,
   "click here now".toList, "urgent action required".toList,
   "confirm identity".toList, "update payment".toList,
   "security alert".toList, "account locked".toList,
   "congratulations".toList, "winner".toList, "lottery".toList,
   "prize".toList, "claim now".toList, "limited time".toList,
   "act fast".toList, "exclusive offer".toList, "special deal".toList,
   "once in lifetime".toList, "download now".toList, "install app".toList,
   "click link".toList, "visit site".toList, "open attachment".toList,
   "virus".toList, "malware".toList, "hack".toList, "crack".toList,
   "illegal".toList, "pirated".toList, "help me".toList,
   "emergency".toList, "urgent help".toList, "send money".toList,
   "transfer funds".toList, "family emergency".toList,
   "hospital bills".toList, "stranded abroad".toList]

/-- The lowercased whitespace-split word list of a content string. -/
def contentWords (content : List Char) : List (List Char) :=
  jsSplitWs (jsToLower content)

/-- Number of words that are spam keywords. -/
def spamHits (content : List Char) : Nat :=
  ((contentWords content).filter (fun w => spamKeywordList.contains w)).length

/-- Per-word occurrence counts (the wordCount map of analyzeRepetition). -/
def wordCounts (ws : List (List Char)) : List (List Char × Nat) :=
  ws.foldl (fun m w => mapSet w ((mapLookup w m).getD 0 + 1) m) []

/-- analyzeRepetition (MessageAnalyzer.ts lines 427-443): every word
appearing more than 3 times adds (count - 3) times 0.1; capped at 1. -/
def analyzeRepetition (content : List Char) : ℚ :=
  let counts := wordCounts (contentWords content)
  let raw := counts.foldl
    (fun acc e => if 3 < e.2 then acc + mkRat (e.2 - 3) 1 * mkRat 1 10 else acc) 0
  min raw 1

/-- Number of uppercase letters (the match count of the global A-Z regex). -/
def capsCount (content : List Char) : Nat :=
  (content.filter jsIsUpper).length

/-- The number of URL matches used for the URL-density bonus. -/
def urlCount (content : List Char) : Nat := countMatches urlMatcher content

/-- The weighted-sum combiner of performSpamAnalysis as a function of the
extracted features (each parameter is computed from the content exactly as
in the source; see performSpamAnalysis below, which instantiates them).
The caps-abuse test compares the uppercase ratio to 0.5 (for an empty
content the source's 0/0 is NaN and the comparison is false; mkRat maps
denominator 0 to 0, giving the same outcome). -/
def spamScoreFeat (hits wordCount : Nat) (len : Nat) (rep : ℚ)
    (urls : Nat) (caps : Nat) : ℚ :=
  let t1 := if 0 < hits then mkRat hits 1 / mkRat (max wordCount 1) 1 * mkRat 4 10 else 0
  let t2 := if 1000 < len then mkRat 2 10 else 0
  let t3 := if rep > mkRat 3 10 then rep * mkRat 3 10 else 0
  let t4 := if 2 < urls then min (mkRat urls 1 * mkRat 1 10) (mkRat 3 10) else 0
  let t5 := if mkRat caps len > mkRat 1 2 && decide (20 < len) then mkRat 2 10 else 0
  min (t1 + t2 + t3 + t4 + t5) 1

/-- performSpamAnalysis (MessageAnalyzer.ts lines 281-322): the returned
score (the accompanying reasons strings carry no further information). -/
def performSpamAnalysis (content : List Char) : ℚ :=
  spamScoreFeat (spamHits content) (contentWords content).length content.length
    (analyzeRepetition content) (urlCount content) (capsCount content)

/-! ### Rate limiting, behavior analysis, risk scoring -/

/-- RATE_LIMIT_WINDOW (one minute, in milliseconds). -/
def RATE_LIMIT_WINDOW : Nat := 60000

/-- RATE_LIMIT_THRESHOLD (messages per minute). -/
def RATE_LIMIT_THRESHOLD : Nat := 10

/-- Result record of checkAdvancedRateLimit. -/
structure RateResult where
  exceeded : Bool
  count : Nat
  severity : Severity
deriving DecidableEq, Repr

/-- checkAdvancedRateLimit (MessageAnalyzer.ts lines 324-352): drop
timestamps at distance at least the window from now, append now, store, and
report the in-window count with an escalating severity.  Timestamps are
naturals; truncated subtraction agrees with the JS comparison now - ts <
window for future timestamps too (both keep them). -/
def checkAdvancedRateLimit (sender : List Char) (now : Nat)
    (m : List (List Char × List Nat)) : RateResult × List (List Char × List Nat) :=
  let timestamps := (mapLookup sender m).getD []
  let recent := (timestamps.filter (fun ts => now - ts < RATE_LIMIT_WINDOW)) ++ [now]
  let m' := mapSet sender recent m
  let count := recent.length
  let severity :=
    if RATE_LIMIT_THRESHOLD * 3 < count then Severity.high
    else if RATE_LIMIT_THRESHOLD * 2 < count then Severity.medium
    else Severity.low
  (⟨RATE_LIMIT_THRESHOLD < count, count, severity⟩, m')

/-- A message as seen by the analyzer (the fields analyzeMessage reads). -/
structure Message where
  sender : List Char
  content : List Char
  timestamp : Nat
  type : List Char
  is_from_me : Bool

/-- The behavioral anomaly flags. -/
inductive Anomaly
  | unusual_time
  | excessive_length
  | media_with_links
deriving DecidableEq, Repr

/-- Hour of day of an epoch-milliseconds timestamp (the source's
new Date(ts).getHours(), modelled at UTC offset; always below 24). -/
def getHoursOfDay (ts : Nat) : Nat := ts / 3600000 % 24

/-- analyzeBehavior (MessageAnalyzer.ts lines 379-404): the three anomaly
flags and a severity scaling with how many fired. -/
def analyzeBehavior (m : Message) : List Anomaly × Severity :=
  let hour := getHoursOfDay m.timestamp
  let a1 := if hour < 6 || 23 < hour then [Anomaly.unusual_time] else []
  let a2 := if 2000 < m.content.length then [Anomaly.excessive_length] else []
  let a3 := if m.type ≠ "text".toList ∧ hasHttp m.content then [Anomaly.media_with_links] else []
  let anomalies := a1 ++ a2 ++ a3
  let severity :=
    if 2 < anomalies.length then Severity.high
    else if 0 < anomalies.length then Severity.medium
    else Severity.low
  (anomalies, severity)

/-- The per-severity weight of calculateRiskScore. -/
def severityWeight : Severity → ℚ
  | Severity.critical => mkRat 4 10
  | Severity.high => mkRat 3 10
  | Severity.medium => mkRat 2 10
  | Severity.low => mkRat 1 10

/-- calculateRiskScore (MessageAnalyzer.ts lines 406-425): severity weights
of the alerts plus content-based bonuses, capped at 1. -/
def calculateRiskScore (m : Message) (alerts : List Alert) : ℚ :=
  let base := alerts.foldl (fun acc a => acc + severityWeight a.severity) 0
  let b1 := if 1000 < m.content.length then mkRat 1 10 else 0
  let b2 := if m.type ≠ "text".toList then mkRat 5 100 else 0
  let b3 := if ¬ m.is_from_me ∧ hasHttp m.content then mkRat 15 100 else 0
  min (base + b1 + b2 + b3) 1

/-! ### analyzeMessage with its try/catch (MessageAnalyzer.ts lines 202-279) -/

/-- The mutable analyzer state: the content-fingerprint cache and the
per-sender rate-limit map. -/
structure AnalyzerState where
  contentCache : List (List Char × Nat)
  rateLimitMap : List (List Char × List Nat)
deriving DecidableEq, Repr

/-- The fresh analyzer state (empty maps, as built by the constructor). -/
def initialState : AnalyzerState := ⟨[], []⟩

/-- The operations of the try block at which an exception can be raised
(the five checks and the risk-score computation). -/
inductive FaultPoint
  | dupStep
  | spamStep
  | rateStep
  | patternStep
  | behaviorStep
  | riskStep
deriving DecidableEq, Repr

/-- Result of one analyzeMessage call: the updated analyzer state, the
returned alerts, and the message's risk_score field after the call (none
when the assignment was never reached). -/
structure AnalyzeResult where
  state : AnalyzerState
  alerts : List Alert
  risk : Option ℚ
deriving DecidableEq, Repr

/-- The try-block body of analyzeMessage, with an optional injected fault:
a fault at a step raises before that step runs, so the state mutations of
the completed earlier steps persist into the catch.  Steps in source
order: duplicate check, spam analysis, rate limit, patterns, behavior,
risk scoring. -/
def analysisBody (fault : Option FaultPoint) (st : AnalyzerState) (m : Message) :
    Except AnalyzerState AnalyzeResult :=
  if fault = some FaultPoint.dupStep then Except.error st else
  let contentHash := generateContentHash m.content
  let dup := isDuplicateContent contentHash st.contentCache
  let st1 : AnalyzerState := ⟨dup.2, st.rateLimitMap⟩
  let alerts1 := if dup.1 then [Alert.mk AlertType.duplicate_content Severity.medium] else []
  if fault = some FaultPoint.spamStep then Except.error st1 else
  let spamScore := performSpamAnalysis m.content
  let alerts2 :=
    if spamScore > mkRat 3 10 then
      [Alert.mk AlertType.spam_detected
        (if spamScore > mkRat 7 10 then Severity.high else Severity.medium)]
    else []
  if fault = some FaultPoint.rateStep then Except.error st1 else
  let rate := checkAdvancedRateLimit m.sender m.timestamp st1.rateLimitMap
  let st2 : AnalyzerState := ⟨st1.contentCache, rate.2⟩
  let alerts3 := if rate.1.exceeded then [Alert.mk AlertType.rate_limit_exceeded rate.1.severity] else []
  if fault = some FaultPoint.patternStep then Except.error st2 else
  let pat := detectAdvancedPatterns m.content
  let alerts4 := if 0 < pat.1 then [Alert.mk AlertType.suspicious_pattern pat.2.2] else []
  if fault = some FaultPoint.behaviorStep then Except.error st2 else
  let beh := analyzeBehavior m
  let alerts5 := if 0 < beh.1.length then [Alert.mk AlertType.behavioral_anomaly beh.2] else []
  let alerts := alerts1 ++ alerts2 ++ alerts3 ++ alerts4 ++ alerts5
  if fault = some FaultPoint.riskStep then Except.error st2 else
  Except.ok ⟨st2, alerts, some (calculateRiskScore m alerts)⟩

/-- analyzeMessage with the catch applied: an exception yields no alerts
and leaves risk_score unset (the catch only logs and records a metric). -/
def analyzeMessageWith (fault : Option FaultPoint) (st : AnalyzerState) (m : Message) :
    AnalyzeResult :=
  match analysisBody fault st m with
  | Except.ok r => r
  | Except.error st' => ⟨st', [], none⟩

/-- analyzeMessage on the fault-free path. -/
def analyzeMessage (st : AnalyzerState) (m : Message) : AnalyzeResult :=
  analyzeMessageWith none st m

/-- The risk score the store persists for a message
(DatabaseManager.ts saveMessage, message.risk_score or-else 0.0; on
numbers the JS or-else agrees with defaulting an unset value to 0). -/
def persistedRiskScore (r : Option ℚ) : ℚ := r.getD 0

/-! ### Webhook delivery with retries (part_002, WebhookManager lines 92-130) -/

/-- retryAttempts (WebhookManager). -/
def retryAttempts : Nat := 3

/-- retryDelay in milliseconds (WebhookManager). -/
def retryDelay : Nat := 1000

/-- Observable outcome of one delivery: POST calls made, backoff delays
scheduled between attempts, whether a success response was received, and
the failedWebhooks counter after the delivery.  On success the counter is
reduced by one clamped at zero (Math.max(0, failed - 1), which is
truncated subtraction); each failed attempt increments it. -/
structure DeliveryRun where
  posts : Nat
  delays : List Nat
  delivered : Bool
  failedCount : Nat
deriving DecidableEq, Repr

/-- sendWebhook (part_002 lines 92-130) as a function of the per-attempt
outcomes (true = 2xx response, false = non-ok response or network error):
a failed attempt below the attempt cap schedules a retry after
retryDelay times 2 to the (attempt - 1); at the cap the delivery is
dropped. -/
def sendWebhookRun (attempt : Nat) (outcomes : List Bool) (failed : Nat) : DeliveryRun :=
  match outcomes with
  | [] => ⟨0, [], false, failed⟩
  | ok :: rest =>
    if ok then ⟨1, [], true, failed - 1⟩
    else
      let failed1 := failed + 1
      if attempt < retryAttempts then
        let d := retryDelay * 2 ^ (attempt - 1)
        let sub := sendWebhookRun (attempt + 1) rest failed1
        ⟨sub.posts + 1, d :: sub.delays, sub.delivered, sub.failedCount⟩
      else ⟨1, [], false, failed1⟩

/-- A delivery starts at attempt 1. -/
def sendWebhook (outcomes : List Bool) (failed : Nat) : DeliveryRun :=
  sendWebhookRun 1 outcomes failed

/-! ### Reconnection supervisor
(DatabaseManager.ts, WhatsAppManager lines 803-832 and 1056-1080) -/

/-- maxReconnectAttempts (WhatsAppManager). -/
def maxReconnectAttempts : Nat := 5

/-- Base delay of the exponential reconnect backoff, in milliseconds. -/
def reconnectBaseDelay : Nat := 1000

/-- Cap of the reconnect backoff, in milliseconds. -/
def reconnectCapDelay : Nat := 30000

/-- What one handleReconnection call does: the scheduled timer delay if
any, and whether the max-reconnection-attempts system alert is sent. -/
structure ReconnAction where
  timerDelay : Option Nat
  fatalAlert : Bool
deriving DecidableEq, Repr

/-- handleReconnection (DatabaseManager.ts lines 1056-1080): at the attempt
cap, send the fatal system alert and schedule nothing; otherwise increment
the counter and schedule a reconnect after
min(1000 * 2 ^ attempts, 30000) using the incremented counter. -/
def handleReconnection (attempts : Nat) : Nat × ReconnAction :=
  if maxReconnectAttempts ≤ attempts then (attempts, ⟨none, true⟩)
  else
    let a := attempts + 1
    (a, ⟨some (min (reconnectBaseDelay * 2 ^ a) reconnectCapDelay), false⟩)

/-- Outcome of one connection attempt: the handshake opened, or the
connection closed with a reason that is not the logged-out credential
invalidation (the connection.update handler reconnects exactly for those). -/
inductive ConnOutcome
  | opened
  | closed
deriving DecidableEq, Repr

/-- Closed-loop run of the supervisor over a sequence of connection
outcomes: an open resets the attempt counter to 0 (connection.update,
line 827); a close calls handleReconnection, and only a scheduled timer
leads to a next attempt — when none is scheduled the loop is dead, the
remaining outcomes are unreachable, and the fatal alert has fired once.
Returns the scheduled delays in order and the number of fatal alerts. -/
def runReconnect : Nat → List ConnOutcome → List Nat × Nat
  | _, [] => ([], 0)
  | _, ConnOutcome.opened :: rest => runReconnect 0 rest
  | a, ConnOutcome.closed :: rest =>
    match handleReconnection a with
    | (a', ⟨some d, _⟩) =>
      let r := runReconnect a' rest
      (d :: r.1, r.2)
    | (_, ⟨none, _⟩) => ([], 1)

/-! ### Concrete scenario data used by the theorems -/

/-- The end-to-end scenario content of the spec. -/
def c2content : List Char := "FREE MONEY CLICK HERE http://x http://y http://z".toList

/-- The end-to-end scenario message: inbound text from sender A at noon. -/
def c2msg : Message := ⟨"A".toList, c2content, 12 * 3600000, "text".toList, false⟩

/-- A short benign message used for the duplicate-content run. -/
def helloMsg : Message := ⟨"A".toList, "hello".toList, 12 * 3600000, "text".toList, false⟩

/-- Cache state after n isDuplicateContent calls with the same fingerprint. -/
def dupCacheAfter (h : List Char) (cache : List (List Char × Nat)) : Nat → List (List Char × Nat)
  | 0 => cache
  | n + 1 => (isDuplicateContent h (dupCacheAfter h cache n)).2

/-- Result of the n-th isDuplicateContent call (n counted from 1) in a run
of calls with the same fingerprint. -/
def dupCallResult (h : List Char) (cache : List (List Char × Nat)) (n : Nat) : Bool :=
  (isDuplicateContent h (dupCacheAfter h cache (n - 1))).1

/-- Cache contents after inserting n distinct fingerprints (keys 0, 1, ...)
through the duplicate check with size limit 100 — the spec's eviction
scenario, generic cache keys taken as naturals. -/
def evictDemo (n : Nat) : List (Nat × Nat) :=
  (List.range n).foldl (fun c k => (dupCheckStep 100 k c).2) []

/-- The pre-eviction cache of the scenario: the state just after the
101st entry is stored and before the eviction pass runs. -/
def evictDemoPre : List (Nat × Nat) := mapSet 100 1 (evictDemo 100)

/-- The median occurrence count of a cache (the middle element of the
ascending count distribution). -/
def medianCount {α : Type} (entries : List (α × Nat)) : Nat :=
  ((sortByLe (fun a b => decide (a ≤ b)) (entries.map Prod.snd)).getD
    (entries.length / 2) 0)

/-- Rate-limit map after a sequence of calls for one sender. -/
def rateMapAfter (sender : List Char) (m0 : List (List Char × List Nat)) :
    List Nat → List (List Char × List Nat)
  | [] => m0
  | t :: rest => rateMapAfter sender ((checkAdvancedRateLimit sender t m0).2) rest

/-- Two strings differ only in letter case and in whitespace-run lengths
exactly when they agree after lowercasing and collapsing every whitespace
run to one space. -/
def caseWsEquiv (s1 s2 : List Char) : Prop :=
  collapseWs (jsToLower s1) = collapseWs (jsToLower s2)

instance caseWsEquivDec (s1 s2 : List Char) : Decidable (caseWsEquiv s1 s2) := by
  unfold caseWsEquiv
  exact inferInstance

/-! ## Theorems -/

set_option maxRecDepth 200000 in
/-- C9: for every pair of content strings that differ only in letter case
and in runs of whitespace, generateContentHash produces the same
fingerprint; in particular "Hello  World" and "hello world" hash to the
same value. -/
theorem C9_hash_case_ws_invariant :
    (∀ s1 s2 : List Char, caseWsEquiv s1 s2 →
      generateContentHash s1 = generateContentHash s2) ∧
    generateContentHash "Hello  World".toList = generateContentHash "hello world".toList := by
  constructor
  · intro s1 s2 h
    unfold caseWsEquiv at h
    unfold generateContentHash normalizeContent
    rw [h]
  · decide

set_option maxRecDepth 200000 in
/-- Witness for C9: the two spec strings are related and hash alike. -/
theorem C9_hash_case_ws_invariant_witness :
    caseWsEquiv "Hello  World".toList "hello world".toList ∧
    generateContentHash "Hello  World".toList = generateContentHash "hello world".toList :=
  ⟨by decide, C9_hash_case_ws_invariant.1 _ _ (by decide)⟩

/-- C10: the behavioral check flags unusual_time exactly when the hour of
day is in 0..5; the hour is always at most 23, so the hour-above-23 branch
never fires and messages sent in hours 6 through 23 are never flagged. -/
theorem C10_unusual_time_iff_hour_below_six :
    (∀ m : Message, Anomaly.unusual_time ∈ (analyzeBehavior m).1 ↔
      getHoursOfDay m.timestamp < 6) ∧
    (∀ ts : Nat, getHoursOfDay ts ≤ 23) ∧
    (∀ m : Message, 6 ≤ getHoursOfDay m.timestamp →
      Anomaly.unusual_time ∉ (analyzeBehavior m).1) := by
  have hbound : ∀ ts : Nat, getHoursOfDay ts ≤ 23 := by
    intro ts
    have : ts / 3600000 % 24 < 24 := Nat.mod_lt _ (by norm_num)
    exact Nat.lt_succ_iff.mp this
  have hmem : ∀ m : Message, Anomaly.unusual_time ∈ (analyzeBehavior m).1 ↔
      getHoursOfDay m.timestamp < 6 := by
    intro m
    have h23 : ¬ (23 < getHoursOfDay m.timestamp) := Nat.not_lt.mpr (hbound _)
    unfold analyzeBehavior
    by_cases h6 : getHoursOfDay m.timestamp < 6 <;> simp [h6, h23]
  refine ⟨hmem, hbound, ?_⟩
  intro m h
  rw [hmem m]
  omega

/-- Witness for C10: an 11pm message is not flagged as unusual time. -/
theorem C10_unusual_time_iff_hour_below_six_witness :
    6 ≤ getHoursOfDay (23 * 3600000) ∧
    Anomaly.unusual_time ∉
      (analyzeBehavior ⟨"A".toList, "hello".toList, 23 * 3600000, "text".toList, false⟩).1 :=
  ⟨by decide, C10_unusual_time_iff_hour_below_six.2.2 _ (by decide)⟩

/-- A run of consecutive non-credential closes from attempt counter a:
the scheduled delays follow min(base * 2 ^ n, cap) for the incremented
counters, and the fatal alert fires exactly when the failures outlast the
remaining attempt budget. -/
lemma runReconnect_replicate_closed (k : Nat) :
    ∀ a, a ≤ maxReconnectAttempts →
      runReconnect a (List.replicate k ConnOutcome.closed) =
        ((List.range' (a + 1) (min k (maxReconnectAttempts - a))).map
          (fun n => min (reconnectBaseDelay * 2 ^ n) reconnectCapDelay),
         if maxReconnectAttempts - a < k then 1 else 0) := by
  induction k with
  | zero => intro a _; simp [runReconnect]
  | succ k ih =>
    intro a ha
    by_cases h : maxReconnectAttempts ≤ a
    · have haeq : maxReconnectAttempts - a = 0 := by omega
      simp [List.replicate_succ, runReconnect, handleReconnection, h, haeq]
    · have h1 : min (k + 1) (maxReconnectAttempts - a) =
          min k (maxReconnectAttempts - (a + 1)) + 1 := by omega
      have h2 : (if maxReconnectAttempts - (a + 1) < k then (1 : Nat) else 0) =
          if maxReconnectAttempts - a < k + 1 then 1 else 0 := by
        by_cases hc : maxReconnectAttempts - (a + 1) < k
        · rw [if_pos hc, if_pos (by omega)]
        · rw [if_neg hc, if_neg (by omega)]
      simp only [List.replicate_succ, runReconnect, handleReconnection, if_neg h]
      rw [ih (a + 1) (by omega), h1, List.range'_succ, List.map_cons, ← h2]

/-- C3: the reconnection policy of the supervisor — the delay before
attempt n of a run of non-credential connection closes is
min(baseDelay * 2 ^ n, capDelay); at most the configured maximum number of
timers is ever scheduled; once the failures exceed the budget the fatal
alert is emitted exactly once; and a successful open resets the attempt
counter to 0. -/
theorem C3_reconnect_backoff_cap_reset :
    (∀ k : Nat, (runReconnect 0 (List.replicate k ConnOutcome.closed)).1 =
      (List.range' 1 (min k maxReconnectAttempts)).map
        (fun n => min (reconnectBaseDelay * 2 ^ n) reconnectCapDelay)) ∧
    (∀ k : Nat, (runReconnect 0 (List.replicate k ConnOutcome.closed)).1.length =
      min k maxReconnectAttempts) ∧
    (∀ k : Nat, (runReconnect 0 (List.replicate k ConnOutcome.closed)).2 =
      if maxReconnectAttempts < k then 1 else 0) ∧
    (∀ (a : Nat) (rest : List ConnOutcome),
      runReconnect a (ConnOutcome.opened :: rest) = runReconnect 0 rest) := by
  have base : ∀ k : Nat, runReconnect 0 (List.replicate k ConnOutcome.closed) =
      ((List.range' 1 (min k maxReconnectAttempts)).map
        (fun n => min (reconnectBaseDelay * 2 ^ n) reconnectCapDelay),
       if maxReconnectAttempts < k then 1 else 0) := by
    intro k
    have := runReconnect_replicate_closed k 0 (by omega)
    simpa using this
  refine ⟨fun k => by rw [base k], fun k => ?_, fun k => by rw [base k], fun a rest => rfl⟩
  rw [base k]
  simp

/-- The backoff delays of a webhook delivery run starting at a given
attempt double per retry: delay i of the run from attempt a is
retryDelay * 2 ^ (a - 1 + i). -/
lemma sendWebhookRun_delays (outcomes : List Bool) :
    ∀ a f, 1 ≤ a →
      (sendWebhookRun a outcomes f).delays =
        (List.range' (a - 1) (sendWebhookRun a outcomes f).delays.length).map
          (fun i => retryDelay * 2 ^ i) := by
  induction outcomes with
  | nil => intro a f _; simp [sendWebhookRun]
  | cons ok rest ih =>
    intro a f ha
    by_cases hok : ok = true
    · simp [sendWebhookRun, hok]
    · have hok' : ok = false := by simp at hok; exact hok
      subst hok'
      by_cases hlt : a < retryAttempts
      · simp only [sendWebhookRun, Bool.false_eq_true, if_false, if_pos hlt,
          List.length_cons]
        have hih := ih (a + 1) (f + 1) (by omega)
        rw [Nat.add_sub_cancel] at hih
        rw [List.range'_succ, List.map_cons, show a - 1 + 1 = a from by omega, ← hih]
      · simp [sendWebhookRun, hlt]

/-- C4 counterexample: after retryAttempts consecutive failed attempts the
failure counter has incremented by 3 (one per failed POST), not by exactly
1 as claimed. -/
theorem C4_counterexample_failed_counter :
    (sendWebhook [false, false, false] 0).failedCount = 3 ∧
    (sendWebhook [false, false, false] 0).failedCount ≠ 0 + 1 ∧
    (sendWebhook [false, false, false] 0).delivered = false := by decide

/-- C4 (amended): a delivery that fails twice and succeeds on the third
attempt makes exactly 3 POST calls, succeeds, and nets a counter change of
+1 (two increments, one success decrement); the delays double as
retryDelay * 2 ^ (attempt - 1); a delivery whose attempts all fail is
dropped after 3 POST calls and increments the counter by one per failed
attempt (3 in total, not 1). -/
theorem C4_webhook_retry_amended :
    (∀ f0 : Nat, sendWebhook [false, false, true] f0 =
      ⟨3, [1000, 2000], true, f0 + 1⟩) ∧
    (∀ f0 : Nat, sendWebhook [false, false, false] f0 =
      ⟨3, [1000, 2000], false, f0 + 3⟩) ∧
    (∀ (outcomes : List Bool) (f0 : Nat),
      (sendWebhook outcomes f0).delays =
        (List.range (sendWebhook outcomes f0).delays.length).map
          (fun i => retryDelay * 2 ^ i)) := by
  refine ⟨fun f0 => ?_, fun f0 => ?_, fun outcomes f0 => ?_⟩
  · simp [sendWebhook, sendWebhookRun, retryAttempts, retryDelay]
  · simp [sendWebhook, sendWebhookRun, retryAttempts, retryDelay]
  · have := sendWebhookRun_delays outcomes 1 f0 (by omega)
    rw [List.range_eq_range']
    simpa using this

set_option maxRecDepth 1000000 in
unseal Rat.add Rat.mul Rat.inv Rat.sub in
/-- C2 counterexample: on the end-to-end scenario message the spam score is
exactly 0.3, which does not clear the strict greater-than-0.3 threshold, so
no spam_detected alert (of any severity) is emitted. -/
theorem C2_counterexample_no_spam_alert :
    ((analyzeMessage initialState c2msg).alerts.filter
      (fun a => a.type == AlertType.spam_detected)) = [] ∧
    performSpamAnalysis c2content = mkRat 3 10 := by decide

set_option maxRecDepth 1000000 in
unseal Rat.add Rat.mul Rat.inv Rat.sub in
/-- C2 (amended): the end-to-end scenario message produces no spam_detected
alert (its spam score is exactly the 0.3 threshold, and the comparison is
strict); it produces one suspicious_pattern alert of severity medium, and
its risk score is set to the non-zero value 0.35. -/
theorem C2_scenario_amended :
    (analyzeMessage initialState c2msg).alerts =
      [⟨AlertType.suspicious_pattern, Severity.medium⟩] ∧
    (analyzeMessage initialState c2msg).risk = some (mkRat 7 20) ∧
    ¬ (mkRat 7 20 = 0) := by decide

/-- mapSet grows the underlying list by at most one entry. -/
lemma length_mapSet_le {α β : Type} [DecidableEq α] (k : α) (v : β) (l : List (α × β)) :
    (mapSet k v l).length ≤ l.length + 1 := by
  induction l with
  | nil => simp [mapSet]
  | cons hd tl ih =>
    simp only [mapSet]
    split <;> simp only [List.length_cons] <;> omega

/-- Inserting into a sorted list adds one element. -/
lemma length_insertByLe {α : Type} (le : α → α → Bool) (x : α) (l : List α) :
    (insertByLe le x l).length = l.length + 1 := by
  induction l with
  | nil => rfl
  | cons hd tl ih =>
    simp only [insertByLe]
    split <;> simp [ih]

/-- The stable sort preserves length. -/
lemma length_sortByLe {α : Type} (le : α → α → Bool) (l : List α) :
    (sortByLe le l).length = l.length := by
  induction l with
  | nil => rfl
  | cons hd tl ih => simp [sortByLe, length_insertByLe, ih]

set_option maxRecDepth 1000000 in
/-- C5 counterexample: with capacity 100, the insert that triggers the
eviction pass (the 101st distinct fingerprint) leaves 51 entries in the
cache — the pass keeps ceil(101 / 2) entries, which exceeds C / 2 = 50. -/
theorem C5_counterexample_size_above_half :
    (evictDemo 101).length = 51 ∧ ¬ (evictDemo 101).length ≤ 100 / 2 := by decide

set_option maxRecDepth 1000000 in
/-- C5 (amended): after the insert that triggers an eviction pass the cache
holds C / 2 + 1 entries (51 for capacity 100, not at most 50); every
retained entry's count is at least the median count of the pre-eviction
distribution; and one duplicate-check step never leaves more than the
configured limit of entries when it starts within the limit (so the size
never exceeds the limit after an eviction pass). -/
theorem C5_eviction_amended :
    ((evictDemo 101).length = 100 / 2 + 1 ∧ evictDemo 101 = evictCache evictDemoPre) ∧
    (∀ e ∈ evictDemo 101, medianCount evictDemoPre ≤ e.2) ∧
    (∀ {α : Type} [DecidableEq α] (limit : Nat) (k : α) (cache : List (α × Nat)),
      2 ≤ limit → cache.length ≤ limit →
      ((dupCheckStep limit k cache).2).length ≤ limit) := by
  refine ⟨by decide, by decide, ?_⟩
  intro α _ limit k cache h2 hlen
  unfold dupCheckStep
  simp only []
  have hset : (mapSet k ((mapLookup k cache).getD 0 + 1) cache).length ≤ limit + 1 :=
    le_trans (length_mapSet_le _ _ _) (by omega)
  by_cases hover : limit < (mapSet k ((mapLookup k cache).getD 0 + 1) cache).length
  · rw [if_pos hover]
    unfold evictCache
    rw [List.length_take, length_sortByLe]
    omega
  · rw [if_neg hover]
    omega

set_option maxRecDepth 1000000 in
/-- Witness for C5: the size invariant applied to the post-eviction demo
cache at capacity 100. -/
theorem C5_eviction_amended_witness :
    (2 ≤ 100 ∧ (evictDemo 101).length ≤ 100) ∧
    ((dupCheckStep 100 (200 : Nat) (evictDemo 101)).2).length ≤ 100 :=
  ⟨⟨by decide, by decide⟩,
    C5_eviction_amended.2.2 100 200 (evictDemo 101) (by decide) (by decide)⟩

/-- Looking up a key right after setting it yields the stored value. -/
lemma mapLookup_mapSet_self {α β : Type} [DecidableEq α] (k : α) (v : β)
    (l : List (α × β)) : mapLookup k (mapSet k v l) = some v := by
  induction l with
  | nil => simp [mapSet, mapLookup]
  | cons hd tl ih =>
    obtain ⟨k', v'⟩ := hd
    simp only [mapSet]
    split
    · simp [mapLookup]
    · next hne => simp [mapLookup, hne, ih]

/-- mapSet keeps the length when the key is present and grows it by one
otherwise. -/
lemma length_mapSet {α β : Type} [DecidableEq α] (k : α) (v : β) (l : List (α × β)) :
    (mapSet k v l).length =
      if (mapLookup k l).isSome then l.length else l.length + 1 := by
  induction l with
  | nil => simp [mapSet, mapLookup]
  | cons hd tl ih =>
    obtain ⟨k', v'⟩ := hd
    simp only [mapSet, mapLookup]
    split
    · simp
    · simp only [List.length_cons, ih]
      split <;> simp

/-- In a run of duplicate checks with one fingerprint that starts below the
cache limit with the fingerprint absent, the n-th call leaves the count at
n and never triggers an eviction. -/
lemma dupCacheAfter_spec (h : List Char) (cache : List (List Char × Nat))
    (hnone : mapLookup h cache = none) (hlen : cache.length < CACHE_SIZE_LIMIT) :
    ∀ n, 1 ≤ n → mapLookup h (dupCacheAfter h cache n) = some n ∧
      (dupCacheAfter h cache n).length = cache.length + 1 := by
  intro n hn
  induction n with
  | zero => omega
  | succ n ih =>
    by_cases hn0 : n = 0
    · subst hn0
      have hstep : dupCacheAfter h cache (0 + 1) = (isDuplicateContent h cache).2 := rfl
      rw [hstep]
      unfold isDuplicateContent dupCheckStep
      simp only [hnone, Option.getD_none]
      have hlen1 : (mapSet h (0 + 1) cache).length = cache.length + 1 := by
        rw [length_mapSet, hnone]
        simp
      have hno : ¬ (CACHE_SIZE_LIMIT < (mapSet h (0 + 1) cache).length) := by
        rw [hlen1]; omega
      simp only [if_neg hno]
      exact ⟨mapLookup_mapSet_self h (0 + 1) cache, hlen1⟩
    · obtain ⟨hlook, hlen'⟩ := ih (by omega)
      have hstep : dupCacheAfter h cache (n + 1) =
          (isDuplicateContent h (dupCacheAfter h cache n)).2 := rfl
      rw [hstep]
      unfold isDuplicateContent dupCheckStep
      simp only [hlook, Option.getD_some]
      have hset : (mapSet h (n + 1) (dupCacheAfter h cache n)).length =
          (dupCacheAfter h cache n).length := by
        rw [length_mapSet, hlook]
        simp
      have hno : ¬ (CACHE_SIZE_LIMIT <
          (mapSet h (n + 1) (dupCacheAfter h cache n)).length) := by
        rw [hset, hlen']; omega
      simp only [if_neg hno]
      exact ⟨mapLookup_mapSet_self h (n + 1) _, hset.trans hlen'⟩

/-- analyzeMessage on the fault-free path, written out: the five checks in
source order, the concatenated alert list, and the risk-score assignment. -/
lemma analyzeMessage_unfold (st : AnalyzerState) (m : Message) :
    analyzeMessage st m =
      (let dup := isDuplicateContent (generateContentHash m.content) st.contentCache
       let alerts1 := if dup.1 then [Alert.mk AlertType.duplicate_content Severity.medium] else []
       let spamScore := performSpamAnalysis m.content
       let alerts2 :=
         if spamScore > mkRat 3 10 then
           [Alert.mk AlertType.spam_detected
             (if spamScore > mkRat 7 10 then Severity.high else Severity.medium)]
         else []
       let rate := checkAdvancedRateLimit m.sender m.timestamp st.rateLimitMap
       let alerts3 := if rate.1.exceeded then [Alert.mk AlertType.rate_limit_exceeded rate.1.severity] else []
       let pat := detectAdvancedPatterns m.content
       let alerts4 := if 0 < pat.1 then [Alert.mk AlertType.suspicious_pattern pat.2.2] else []
       let beh := analyzeBehavior m
       let alerts5 := if 0 < beh.1.length then [Alert.mk AlertType.behavioral_anomaly beh.2] else []
       let alerts := alerts1 ++ alerts2 ++ alerts3 ++ alerts4 ++ alerts5
       ⟨⟨dup.2, rate.2⟩, alerts, some (calculateRiskScore m alerts)⟩) := rfl

/-- Counting matches in a singleton-or-empty conditional list. -/
lemma countP_if_single (p : Alert → Bool) (c : Prop) [Decidable c] (a : Alert) :
    List.countP p (if c then [a] else []) =
      if c then (if p a then 1 else 0) else 0 := by
  split <;> simp [List.countP_cons]

set_option maxRecDepth 1000000 in
unseal Rat.add Rat.mul Rat.inv Rat.sub in
/-- C1 counterexample: starting from an empty cache, the 3rd
duplicate-content check with the same fingerprint still reports no
duplicate (the prior count 2 does not exceed 2), and the 3rd analyzeMessage
call on the same content emits no duplicate_content alert. -/
theorem C1_counterexample_third_call :
    dupCallResult (generateContentHash "hello".toList) [] 3 = false ∧
    ((analyzeMessage (analyzeMessage
        (analyzeMessage initialState helloMsg).state helloMsg).state helloMsg).alerts.countP
      (fun a => a.type == AlertType.duplicate_content)) = 0 := by decide

/-- C1 (amended): it is the 4th call of the duplicate-content check with a
given fingerprint — and every subsequent call — that reports a duplicate
(the check fires when the prior count exceeds 2, i.e. from prior count 3
on), assuming no eviction removed the entry; on every call where the check
fires, analyzeMessage emits exactly one duplicate_content alert, and such
alerts always have severity medium. -/
theorem C1_duplicate_from_fourth_call :
    (∀ (cache : List (List Char × Nat)) (h : List Char) (n : Nat),
      mapLookup h cache = none → cache.length < CACHE_SIZE_LIMIT → 1 ≤ n →
      dupCallResult h cache n = decide (3 < n)) ∧
    (∀ (st : AnalyzerState) (m : Message),
      (analyzeMessage st m).alerts.countP (fun a => a.type == AlertType.duplicate_content) =
        if (isDuplicateContent (generateContentHash m.content) st.contentCache).1
        then 1 else 0) ∧
    (∀ (st : AnalyzerState) (m : Message) (a : Alert),
      a ∈ (analyzeMessage st m).alerts → a.type = AlertType.duplicate_content →
      a.severity = Severity.medium) := by
  refine ⟨?_, ?_, ?_⟩
  · intro cache h n hnone hlen hn
    match n, hn with
    | 1, _ =>
      unfold dupCallResult
      have hz : dupCacheAfter h cache (1 - 1) = cache := rfl
      rw [hz]
      unfold isDuplicateContent dupCheckStep
      simp [hnone]
    | (n + 2), _ =>
      unfold dupCallResult
      have hz : dupCacheAfter h cache (n + 2 - 1) = dupCacheAfter h cache (n + 1) := rfl
      rw [hz]
      obtain ⟨hlook, _⟩ := dupCacheAfter_spec h cache hnone hlen (n + 1) (by omega)
      unfold isDuplicateContent dupCheckStep
      simp only [hlook, Option.getD_some]
      by_cases hgt : 2 < n + 1
      · simp [hgt]; omega
      · simp [hgt]; omega
  · intro st m
    rw [analyzeMessage_unfold]
    simp only [List.countP_append, countP_if_single]
    split <;> simp
  · intro st m a hmem htype
    rw [analyzeMessage_unfold] at hmem
    simp only [List.mem_append] at hmem
    rcases hmem with ((((h1 | h2) | h3) | h4) | h5)
    · revert h1
      split
      · intro h1
        simp only [List.mem_singleton] at h1
        subst h1
        rfl
      · intro h1
        simp at h1
    · revert h2
      split
      · intro h2
        simp only [List.mem_singleton] at h2
        subst h2
        simp at htype
      · intro h2
        simp at h2
    · revert h3
      split
      · intro h3
        simp only [List.mem_singleton] at h3
        subst h3
        simp at htype
      · intro h3
        simp at h3
    · revert h4
      split
      · intro h4
        simp only [List.mem_singleton] at h4
        subst h4
        simp at htype
      · intro h4
        simp at h4
    · revert h5
      split
      · intro h5
        simp only [List.mem_singleton] at h5
        subst h5
        simp at htype
      · intro h5
        simp at h5

set_option maxRecDepth 1000000 in
unseal Rat.add Rat.mul Rat.inv Rat.sub in
/-- Witness for C1: the 4th call on a fresh cache reports the duplicate,
and the corresponding analyzeMessage call emits exactly one medium
duplicate_content alert. -/
theorem C1_duplicate_from_fourth_call_witness :
    (mapLookup (generateContentHash "hello".toList) ([] : List (List Char × Nat)) = none ∧
     ([] : List (List Char × Nat)).length < CACHE_SIZE_LIMIT ∧
     dupCallResult (generateContentHash "hello".toList) [] 4 = decide (3 < 4)) ∧
    ((analyzeMessage ⟨[(generateContentHash "hello".toList, 3)], []⟩ helloMsg).alerts.countP
      (fun a => a.type == AlertType.duplicate_content) = 1) ∧
    (Alert.mk AlertType.duplicate_content Severity.medium).severity = Severity.medium :=
  ⟨⟨by decide, by decide,
      C1_duplicate_from_fourth_call.1 [] (generateContentHash "hello".toList) 4
        (by decide) (by decide) (by decide)⟩,
   by
    rw [C1_duplicate_from_fourth_call.2.1 ⟨[(generateContentHash "hello".toList, 3)], []⟩ helloMsg]
    decide,
   C1_duplicate_from_fourth_call.2.2 ⟨[(generateContentHash "hello".toList, 3)], []⟩ helloMsg
     (Alert.mk AlertType.duplicate_content Severity.medium) (by decide) rfl⟩

/-- C6: every injected exception in the analysis try block is caught: the
body reports an error at every fault point, and whenever it does,
analyzeMessage returns normally with no alerts and an unset risk score,
which the store persists as 0 — analysis failure never propagates, so it
never blocks persistence of the message. -/
theorem C6_analysis_failure_caught :
    (∀ (st : AnalyzerState) (m : Message) (fp : FaultPoint),
      ∃ stp, analysisBody (some fp) st m = Except.error stp) ∧
    (∀ (fault : Option FaultPoint) (st : AnalyzerState) (m : Message)
        (stp : AnalyzerState),
      analysisBody fault st m = Except.error stp →
      analyzeMessageWith fault st m = ⟨stp, [], none⟩ ∧
      persistedRiskScore (analyzeMessageWith fault st m).risk = 0) := by
  constructor
  · intro st m fp
    cases fp <;> exact ⟨_, rfl⟩
  · intro fault st m stp h
    have hres : analyzeMessageWith fault st m = ⟨stp, [], none⟩ := by
      unfold analyzeMessageWith
      rw [h]
    refine ⟨hres, ?_⟩
    rw [hres]
    rfl

set_option maxRecDepth 1000000 in
/-- Witness for C6: a fault injected at the spam step is caught; the state
keeps the duplicate-check mutation, the alerts are empty, and the unset
risk score persists as 0. -/
theorem C6_analysis_failure_caught_witness :
    analysisBody (some FaultPoint.spamStep) initialState helloMsg =
      Except.error ⟨[(generateContentHash "hello".toList, 1)], []⟩ ∧
    analyzeMessageWith (some FaultPoint.spamStep) initialState helloMsg =
      ⟨⟨[(generateContentHash "hello".toList, 1)], []⟩, [], none⟩ ∧
    persistedRiskScore
      (analyzeMessageWith (some FaultPoint.spamStep) initialState helloMsg).risk = 0 :=
  ⟨rfl,
   (C6_analysis_failure_caught.2 (some FaultPoint.spamStep) initialState helloMsg
      ⟨[(generateContentHash "hello".toList, 1)], []⟩ rfl).1,
   (C6_analysis_failure_caught.2 (some FaultPoint.spamStep) initialState helloMsg
      ⟨[(generateContentHash "hello".toList, 1)], []⟩ rfl).2⟩

/-- The feature-level spam score is never negative. -/
lemma spamScoreFeat_nonneg (hits wc len : Nat) (rep : ℚ) (urls caps : Nat) :
    0 ≤ spamScoreFeat hits wc len rep urls caps := by
  unfold spamScoreFeat
  refine le_min (add_nonneg (add_nonneg (add_nonneg (add_nonneg ?_ ?_) ?_) ?_) ?_)
    (by norm_num)
  · split
    · rw [Rat.mkRat_eq_div, Rat.mkRat_eq_div, Rat.mkRat_eq_div]
      positivity
    · exact le_refl 0
  · split
    · rw [Rat.mkRat_eq_div]
      norm_num
    · exact le_refl 0
  · split
    · next hrep =>
      have h3 : (0 : ℚ) < mkRat 3 10 := by
        rw [Rat.mkRat_eq_div]
        norm_num
      exact mul_nonneg (le_of_lt (lt_trans h3 hrep)) (le_of_lt h3)
    · exact le_refl 0
  · split
    · refine le_min ?_ ?_
      · rw [Rat.mkRat_eq_div, Rat.mkRat_eq_div]
        positivity
      · rw [Rat.mkRat_eq_div]
        norm_num
    · exact le_refl 0
  · split
    · rw [Rat.mkRat_eq_div]
      norm_num
    · exact le_refl 0

/-- Holding all other features fixed, the feature-level spam score is
monotone in the keyword-hit count. -/
lemma spamScoreFeat_mono (wc len urls caps : Nat) (rep : ℚ) {h1 h2 : Nat}
    (hle : h1 ≤ h2) :
    spamScoreFeat h1 wc len rep urls caps ≤ spamScoreFeat h2 wc len rep urls caps := by
  unfold spamScoreFeat
  apply min_le_min _ (le_refl 1)
  have key : (if 0 < h1 then mkRat h1 1 / mkRat (max wc 1) 1 * mkRat 4 10 else 0) ≤
      (if 0 < h2 then mkRat h2 1 / mkRat (max wc 1) 1 * mkRat 4 10 else 0) := by
    rcases Nat.eq_zero_or_pos h1 with hz | hp
    · subst hz
      simp only [lt_irrefl, if_false]
      split
      · rw [Rat.mkRat_eq_div, Rat.mkRat_eq_div, Rat.mkRat_eq_div]
        positivity
      · exact le_refl 0
    · rw [if_pos hp, if_pos (lt_of_lt_of_le hp hle)]
      have hd : (0 : ℚ) < mkRat (max wc 1) 1 := by
        rw [Rat.mkRat_eq_div]
        push_cast
        rw [div_one]
        exact_mod_cast (show 0 < max wc 1 by omega)
      have hnum : (mkRat h1 1 : ℚ) ≤ mkRat h2 1 := by
        rw [Rat.mkRat_eq_div, Rat.mkRat_eq_div]
        push_cast
        rw [div_one, div_one]
        exact_mod_cast hle
      have h410 : (0 : ℚ) ≤ mkRat 4 10 := by
        rw [Rat.mkRat_eq_div]
        norm_num
      exact mul_le_mul_of_nonneg_right (by
        rw [div_le_div_iff_of_pos_right hd] at *
        exact hnum) h410
  exact add_le_add (add_le_add (add_le_add (add_le_add key (le_refl _)) (le_refl _))
    (le_refl _)) (le_refl _)

/-- C8: the spam score of performSpamAnalysis lies in [0, 1] for every
content string, and — holding word count, length, repetition, URL count and
caps count fixed — the score is monotonically non-decreasing in the number
of spam-keyword hits; performSpamAnalysis is exactly the feature combiner
applied to the features extracted from the content. -/
theorem C8_spam_score_range_and_monotone :
    (∀ content : List Char,
      0 ≤ performSpamAnalysis content ∧ performSpamAnalysis content ≤ 1) ∧
    (∀ (wc len urls caps : Nat) (rep : ℚ) (h1 h2 : Nat), h1 ≤ h2 →
      spamScoreFeat h1 wc len rep urls caps ≤ spamScoreFeat h2 wc len rep urls caps) ∧
    (∀ content : List Char, performSpamAnalysis content =
      spamScoreFeat (spamHits content) (contentWords content).length content.length
        (analyzeRepetition content) (urlCount content) (capsCount content)) := by
  refine ⟨fun content => ⟨spamScoreFeat_nonneg _ _ _ _ _ _, ?_⟩,
    fun wc len urls caps rep h1 h2 hle => spamScoreFeat_mono wc len urls caps rep hle,
    fun content => rfl⟩
  unfold performSpamAnalysis spamScoreFeat
  exact min_le_right _ _

unseal Rat.add Rat.mul Rat.inv Rat.sub in
/-- Witness for C8: monotonicity applied at the scenario's feature vector
with 0 versus 3 keyword hits. -/
theorem C8_spam_score_range_and_monotone_witness :
    (0 : Nat) ≤ 3 ∧
    spamScoreFeat 0 7 48 0 3 18 ≤ spamScoreFeat 3 7 48 0 3 18 :=
  ⟨by decide,
   C8_spam_score_range_and_monotone.2.1 7 48 3 18 0 0 3 (by decide)⟩

/-- Processing further in-window timestamps accumulates them all onto the
sender's retained list (nothing is pruned while every pair stays within the
window). -/
lemma rateRun_accumulates (sender : List Char) :
    ∀ (ts : List Nat) (m : List (List Char × List Nat)) (acc : List Nat),
      mapLookup sender m = some acc →
      (∀ x ∈ ts, ∀ y ∈ acc, x - y < RATE_LIMIT_WINDOW) →
      (∀ x ∈ ts, ∀ y ∈ ts, x - y < RATE_LIMIT_WINDOW) →
      mapLookup sender (rateMapAfter sender m ts) = some (acc ++ ts) := by
  intro ts
  induction ts with
  | nil => intro m acc hm _ _; simpa [rateMapAfter] using hm
  | cons t rest ih =>
    intro m acc hm hcross hself
    have hfilter : acc.filter (fun x => decide (t - x < RATE_LIMIT_WINDOW)) = acc := by
      refine List.filter_eq_self.mpr (fun x hx => ?_)
      simp only [decide_eq_true_eq]
      exact hcross t (by simp) x hx
    have hstep : (checkAdvancedRateLimit sender t m).2 = mapSet sender (acc ++ [t]) m := by
      unfold checkAdvancedRateLimit
      simp only [hm, Option.getD_some, hfilter]
    have hrun := ih ((checkAdvancedRateLimit sender t m).2) (acc ++ [t])
      (by rw [hstep]; exact mapLookup_mapSet_self _ _ _)
      (fun x hx y hy => by
        rcases List.mem_append.mp hy with hya | hyt
        · exact hcross x (by simp [hx]) y hya
        · rw [List.mem_singleton.mp hyt]
          exact hself x (by simp [hx]) t (by simp))
      (fun x hx y hy => hself x (by simp [hx]) y (by simp [hy]))
    show mapLookup sender (rateMapAfter sender ((checkAdvancedRateLimit sender t m).2) rest) = _
    rw [hrun]
    simp

/-- The severity of a rate-limit result, read off its own count. -/
lemma rateSeverity_spec (sender : List Char) (now : Nat)
    (m : List (List Char × List Nat)) :
    (checkAdvancedRateLimit sender now m).1.severity =
      (if RATE_LIMIT_THRESHOLD * 3 < (checkAdvancedRateLimit sender now m).1.count
       then Severity.high
       else if RATE_LIMIT_THRESHOLD * 2 < (checkAdvancedRateLimit sender now m).1.count
       then Severity.medium
       else Severity.low) := rfl

/-- C7: in a run of same-sender messages whose timestamps all lie within
one rate window of each other, the k-th message is counted as k in-window
messages, and the rate limit reports exceeded exactly when that count
passes the threshold (so the (threshold+1)-th message is the first to
trigger); severity escalates to medium above twice the threshold and to
high above three times the threshold; and each analyzeMessage call emits
exactly one rate_limit_exceeded alert when the check reports exceeded and
none otherwise. -/
theorem C7_rate_limit_one_alert_and_escalation :
    (∀ (sender : List Char) (m0 : List (List Char × List Nat))
        (pre : List Nat) (t : Nat),
      mapLookup sender m0 = none →
      (∀ x ∈ pre ++ [t], ∀ y ∈ pre ++ [t], x - y < RATE_LIMIT_WINDOW) →
      (checkAdvancedRateLimit sender t (rateMapAfter sender m0 pre)).1.count =
        pre.length + 1 ∧
      ((checkAdvancedRateLimit sender t (rateMapAfter sender m0 pre)).1.exceeded = true ↔
        RATE_LIMIT_THRESHOLD < pre.length + 1)) ∧
    (∀ (sender : List Char) (now : Nat) (m : List (List Char × List Nat)),
      (RATE_LIMIT_THRESHOLD * 2 < (checkAdvancedRateLimit sender now m).1.count ∧
          (checkAdvancedRateLimit sender now m).1.count ≤ RATE_LIMIT_THRESHOLD * 3 →
        (checkAdvancedRateLimit sender now m).1.severity = Severity.medium) ∧
      (RATE_LIMIT_THRESHOLD * 3 < (checkAdvancedRateLimit sender now m).1.count →
        (checkAdvancedRateLimit sender now m).1.severity = Severity.high)) ∧
    (∀ (st : AnalyzerState) (m : Message),
      (analyzeMessage st m).alerts.countP
          (fun a => a.type == AlertType.rate_limit_exceeded) =
        if (checkAdvancedRateLimit m.sender m.timestamp st.rateLimitMap).1.exceeded
        then 1 else 0) := by
  refine ⟨?_, ?_, ?_⟩
  · intro sender m0 pre t hnone hpair
    have hcount : (checkAdvancedRateLimit sender t (rateMapAfter sender m0 pre)).1.count =
        pre.length + 1 := by
      cases pre with
      | nil =>
        show (checkAdvancedRateLimit sender t m0).1.count = 1
        unfold checkAdvancedRateLimit
        simp [hnone]
      | cons p0 prest =>
        have hstep : (checkAdvancedRateLimit sender p0 m0).2 = mapSet sender [p0] m0 := by
          unfold checkAdvancedRateLimit
          simp [hnone]
        have hlook : mapLookup sender (rateMapAfter sender m0 (p0 :: prest)) =
            some (p0 :: prest) := by
          have := rateRun_accumulates sender prest
            ((checkAdvancedRateLimit sender p0 m0).2) [p0]
            (by rw [hstep]; exact mapLookup_mapSet_self _ _ _)
            (fun x hx y hy => by
              rw [List.mem_singleton.mp hy]
              exact hpair x (by simp [hx]) p0 (by simp))
            (fun x hx y hy => hpair x (by simp [hx]) y (by simp [hy]))
          show mapLookup sender
            (rateMapAfter sender ((checkAdvancedRateLimit sender p0 m0).2) prest) = _
          rw [this]
          simp
        have hfilter : (p0 :: prest).filter
            (fun x => decide (t - x < RATE_LIMIT_WINDOW)) = p0 :: prest := by
          refine List.filter_eq_self.mpr (fun x hx => ?_)
          simp only [decide_eq_true_eq]
          refine hpair t (by simp) x ?_
          rcases List.mem_cons.mp hx with h | h <;> simp [h]
        unfold checkAdvancedRateLimit
        simp [hlook, hfilter]
    refine ⟨hcount, ?_⟩
    have hexc : (checkAdvancedRateLimit sender t (rateMapAfter sender m0 pre)).1.exceeded =
        decide (RATE_LIMIT_THRESHOLD <
          (checkAdvancedRateLimit sender t (rateMapAfter sender m0 pre)).1.count) := rfl
    rw [hexc, hcount]
    simp
  · intro sender now m
    constructor
    · rintro ⟨hlo, hhi⟩
      rw [rateSeverity_spec, if_neg (by omega), if_pos (by omega)]
    · intro h3
      rw [rateSeverity_spec, if_pos h3]
  · intro st m
    rw [analyzeMessage_unfold]
    simp only [List.countP_append, countP_if_single]
    split <;> simp

/-- Witness for C7: eleven messages in one window — the 11th is counted as
11 and triggers; and a count above three times the threshold is reported as
high severity. -/
theorem C7_rate_limit_one_alert_and_escalation_witness :
    (mapLookup "s".toList ([] : List (List Char × List Nat)) = none ∧
     (checkAdvancedRateLimit "s".toList 10
        (rateMapAfter "s".toList [] [0, 1, 2, 3, 4, 5, 6, 7, 8, 9])).1.count = 11 ∧
     ((checkAdvancedRateLimit "s".toList 10
        (rateMapAfter "s".toList [] [0, 1, 2, 3, 4, 5, 6, 7, 8, 9])).1.exceeded = true ↔
       RATE_LIMIT_THRESHOLD < 11)) ∧
    (checkAdvancedRateLimit "s".toList 0
      [("s".toList, List.replicate 31 0)]).1.severity = Severity.high := by
  have h := C7_rate_limit_one_alert_and_escalation.1 "s".toList []
    [0, 1, 2, 3, 4, 5, 6, 7, 8, 9] 10 (by decide) (by decide)
  have h2 := (C7_rate_limit_one_alert_and_escalation.2.1 "s".toList 0
    [("s".toList, List.replicate 31 0)]).2 (by decide)
  exact ⟨⟨by decide, h.1, h.2⟩, h2⟩

end Monitor
